import Mathlib

/-!
Verification of the groundhog backup/restore subsystem.

This file is a shallow embedding of the backup/restore orchestration code:

* `BackupRepository` (DynamoDB single-table design: `create`, `findById`,
  `listByDashboard`, `listByOrg`, `listByOrgPaginated`, `countByOrg`),
* `BackupService.backupDashboard` / `listBackupsByDashboard`,
* `RestoreService.restoreDashboard` / `restoreInPlace` /
  `cleanDashboardForRestore`,
* the S3 helpers `putObject` / `getObject` / `generateBackupKey`.

The DynamoDB store is modelled as a list of items; a query over a partition
returns the matching items in sort-key order (`List.insertionSort`), and
page-by-page draining (`LastEvaluatedKey`) is modelled explicitly where the
source drains pages.  External collaborators (the SHA-256 function of node
crypto, the New Relic client, JSON parsing of the fetched payload) are
parameters of the embedding; the payload bytes are an abstract byte list.

The file is organised as: all definitions first, then all theorems.
-/

namespace Groundhog

/-- Bytes of a serialized payload (the utf8 bytes of a JS string). -/
abbrev Bytes := List Nat

/-! ## Data model: the Backup (snapshot) record, from `src/types` and
`BackupRepository.create` / `mapToBackup` (`src/unnamed/part_011`). -/

structure Backup where
  snapshotId : String
  orgId : String
  dashboardGuid : String
  dashboardName : String
  accountId : String
  accountName : String
  ownerEmail : Option String
  s3Key : String
  s3Bucket : String
  backupTimestamp : String
  dashboardUpdatedAt : Option String
  sizeBytes : Nat
  checksum : String
deriving Repr, DecidableEq

/-- Input of `BackupRepository.create` (`CreateBackupInput`). -/
structure CreateBackupInput where
  orgId : String
  dashboardGuid : String
  dashboardName : String
  accountId : String
  accountName : String
  ownerEmail : Option String
  s3Key : String
  s3Bucket : String
  dashboardUpdatedAt : Option String
  sizeBytes : Nat
  checksum : String
deriving Repr, DecidableEq

/-- One item of the single DynamoDB table, with its key attributes and the
backup record attributes (the spread `...backup` in `create`). -/
structure Item where
  pk : String
  sk : String
  gsi1pk : String
  gsi1sk : String
  gsi2pk : String
  gsi2sk : String
  record : Backup
deriving Repr, DecidableEq

/-- `BackupRepository.create`: builds the item written by the `PutCommand`,
given the server-generated `snapshotId` (uuid) and `now` (ISO timestamp). -/
def createItem (input : CreateBackupInput) (snapshotId now : String) : Item :=
  { pk := "ORG#" ++ input.orgId
    sk := "BACKUP#" ++ input.dashboardGuid ++ "#" ++ now
    gsi1pk := "ORG#" ++ input.orgId ++ "#DASHBOARD#" ++ input.dashboardGuid
    gsi1sk := "BACKUP#" ++ now
    gsi2pk := "ORG#" ++ input.orgId ++ "#ACCOUNT#" ++ input.accountId
    gsi2sk := "BACKUP#" ++ now
    record :=
      { snapshotId := snapshotId
        orgId := input.orgId
        dashboardGuid := input.dashboardGuid
        dashboardName := input.dashboardName
        accountId := input.accountId
        accountName := input.accountName
        ownerEmail := input.ownerEmail
        s3Key := input.s3Key
        s3Bucket := input.s3Bucket
        backupTimestamp := now
        dashboardUpdatedAt := input.dashboardUpdatedAt
        sizeBytes := input.sizeBytes
        checksum := input.checksum } }

/-- The key-structure invariant every item written by
`BackupRepository.create` satisfies: the partition key carries the owning
org, and the GSI1 keys carry the dashboard guid and the capture timestamp. -/
def ItemWF (it : Item) : Prop :=
  it.pk = "ORG#" ++ it.record.orgId ∧
  it.sk = "BACKUP#" ++ it.record.dashboardGuid ++ "#" ++ it.record.backupTimestamp ∧
  it.gsi1pk = "ORG#" ++ it.record.orgId ++ "#DASHBOARD#" ++ it.record.dashboardGuid ∧
  it.gsi1sk = "BACKUP#" ++ it.record.backupTimestamp

instance (it : Item) : Decidable (ItemWF it) := by
  unfold ItemWF; infer_instance

/-- Structural lexicographic comparison of char lists (true iff `as ≤ bs`
in the utf8 byte order DynamoDB sorts by); structurally recursive so that
concrete runs reduce. -/
def charListLeB : List Char → List Char → Bool
  | [], _ => true
  | _ :: _, [] => false
  | a :: as, b :: bs =>
    if a < b then true
    else if b < a then false
    else charListLeB as bs

/-- `a ≤ b` on strings, computably. -/
def strLeB (a b : String) : Bool := charListLeB a.toList b.toList

/-- Structural prefix test on char lists. -/
def beginsWithL : List Char → List Char → Bool
  | [], _ => true
  | _ :: _, [] => false
  | a :: as, b :: bs => if a = b then beginsWithL as bs else false

/-- DynamoDB `begins_with(attr, p)`. -/
def strBeginsWith (s p : String) : Bool := beginsWithL p.toList s.toList

/-! ## Repository queries (`BackupRepository`, `src/unnamed/part_011`)

A DynamoDB `Query` on the base table with `PK = ORG#<orgId>` and
`begins_with(SK, BACKUP#)` returns the matching items ordered by `SK`
(`ScanIndexForward: false` means descending); a query on `GSI1` orders by
`GSI1SK`.  The store itself is an unordered list of items, so a query is
modelled as filter-then-sort. -/

/-- Descending sort-key order of the base-table partition. -/
def skDescRel (a b : Item) : Prop := strLeB b.sk a.sk = true

/-- Ascending sort-key order of the base-table partition (the default
`ScanIndexForward` used by `findById`). -/
def skAscRel (a b : Item) : Prop := strLeB a.sk b.sk = true

/-- Descending `GSI1SK` order (used by `listByDashboard`). -/
def gsiDescRel (a b : Item) : Prop := strLeB b.gsi1sk a.gsi1sk = true

instance : DecidableRel skDescRel :=
  fun a b => inferInstanceAs (Decidable (strLeB b.sk a.sk = true))

instance : DecidableRel skAscRel :=
  fun a b => inferInstanceAs (Decidable (strLeB a.sk b.sk = true))

instance : DecidableRel gsiDescRel :=
  fun a b => inferInstanceAs (Decidable (strLeB b.gsi1sk a.gsi1sk = true))

/-- The key condition `PK = :pk AND begins_with(SK, :sk)` of the org backup
partition. -/
def backupKeyFilter (orgId : String) (it : Item) : Bool :=
  decide (it.pk = "ORG#" ++ orgId) && strBeginsWith it.sk ("BACKUP#")

/-- The org's backup partition in descending sort-key order
(`ScanIndexForward: false`, used by `listByOrg` / `listByOrgPaginated`). -/
def orgPartDesc (store : List Item) (orgId : String) : List Item :=
  List.insertionSort skDescRel (store.filter (backupKeyFilter orgId))

/-- The org's backup partition in ascending sort-key order (the default
order used by the `findById` drain loop). -/
def orgPartAsc (store : List Item) (orgId : String) : List Item :=
  List.insertionSort skAscRel (store.filter (backupKeyFilter orgId))

/-- The drain loop of `BackupRepository.findById`: for each raw page the
store returns, apply the `FilterExpression` (`snapshotId = :snapshotId`)
and return the first match; otherwise follow `LastEvaluatedKey` to the
next page.  `pages` is the raw partition cut into store pages. -/
def findByIdPages (pages : List (List Item)) (snapshotId : String) : Option Backup :=
  match pages with
  | [] => none
  | page :: rest =>
    match page.filter (fun it => decide (it.record.snapshotId = snapshotId)) with
    | [] => findByIdPages rest snapshotId
    | it :: _ => some it.record

/-- `BackupRepository.findById` when the store serves the partition as a
single page. -/
def findById (store : List Item) (orgId snapshotId : String) : Option Backup :=
  findByIdPages [orgPartAsc store orgId] snapshotId

/-- The GSI1 partition key `ORG#<orgId>#DASHBOARD#<dashboardGuid>`. -/
def gsi1Key (orgId dashboardGuid : String) : String :=
  "ORG#" ++ orgId ++ "#DASHBOARD#" ++ dashboardGuid

/-- `BackupRepository.listByDashboard`: GSI1 query, most recent first
(`ScanIndexForward: false`), bounded by `Limit: limit`. -/
def listByDashboard (store : List Item) (orgId dashboardGuid : String)
    (limit : Nat) : List Backup :=
  ((List.insertionSort gsiDescRel
      (store.filter (fun it => decide (it.gsi1pk = gsi1Key orgId dashboardGuid)))).take
    limit).map Item.record

/-- `BackupRepository.listByOrg`: drains every page of the partition
(descending), stops once `maxItems` records were accumulated, and slices
the result to `maxItems`. -/
def listByOrg (store : List Item) (orgId : String) (maxItems : Nat) : List Backup :=
  ((orgPartDesc store orgId).take maxItems).map Item.record

/-- `BackupRepository.countByOrg`: exact count by draining the partition in
`Select: COUNT` mode. -/
def countByOrg (store : List Item) (orgId : String) : Nat :=
  (store.filter (backupKeyFilter orgId)).length

/-- One DynamoDB `Query` against the descending partition with
`Limit: lim` starting at the position encoded by `ExclusiveStartKey`
(`startIdx`).  Returns the page and the `LastEvaluatedKey`: the store
reports one exactly when it stopped scanning because `Limit` was reached
(which can happen at the exact end of the partition). -/
def queryDesc (part : List Item) (startIdx lim : Nat) : List Item × Option Nat :=
  let rem := part.drop startIdx
  (rem.take lim, if lim ≤ rem.length then some (startIdx + lim) else none)

/-- The `for (const item of result.Items)` body of `listByOrgPaginated`:
skip while `skipped < skipCount`, then accumulate up to `limit` items, and
flag `hasMoreData` on the first extra item.  Returns
`(skipped, allItems, hasMoreData-set-by-this-page)`. -/
def procLoop (skipCount limit : Nat) :
    List Item → Nat → List Item → Nat × List Item × Bool
  | [], skipped, acc => (skipped, acc, false)
  | it :: rest, skipped, acc =>
    if skipped < skipCount then procLoop skipCount limit rest (skipped + 1) acc
    else if acc.length < limit then procLoop skipCount limit rest skipped (acc ++ [it])
    else (skipped, acc, true)

/-- The `do … while (lastEvaluatedKey && allItems.length < limit)` loop of
`listByOrgPaginated`, with explicit fuel (the loop advances through the
partition, so `part.length + 1` pages always suffice).  State:
`(startIdx, skipped, allItems, hasMoreData)`. -/
def pagLoop (part : List Item) (skipCount limit : Nat) :
    Nat → Nat → Nat → List Item → Bool → List Item × Bool
  | 0, _, _, acc, hasMore => (acc, hasMore)
  | fuel + 1, startIdx, skipped, acc, hasMore =>
    let q := queryDesc part startIdx (limit + skipCount - skipped + 1)
    let pr := procLoop skipCount limit q.1 skipped acc
    let hasMore1 := hasMore || pr.2.2
    if limit ≤ pr.2.1.length then
      (pr.2.1, hasMore1 || q.2.isSome)
    else
      match q.2 with
      | some k => pagLoop part skipCount limit fuel k pr.1 pr.2.1 hasMore1
      | none => (pr.2.1, hasMore1)

/-- The pagination metadata block returned by the repository and the
service layer. -/
structure PageInfo where
  page : Nat
  limit : Nat
  total : Nat
  totalPages : Nat
  hasNext : Bool
  hasPrev : Bool
deriving Repr, DecidableEq

/-- A page of backups together with its pagination metadata
(`PaginatedResponse<Backup>`). -/
structure PaginatedBackups where
  data : List Backup
  pagination : PageInfo
deriving Repr, DecidableEq

/-- `BackupRepository.listByOrgPaginated`: replay the partition from the
start, skip `(page-1)*limit` records, materialise `limit` records, and
estimate `total` from what was observed plus a one-record probe. -/
def listByOrgPaginated (store : List Item) (orgId : String)
    (page limit : Nat) : PaginatedBackups :=
  let skipCount := (page - 1) * limit
  let part := orgPartDesc store orgId
  let r := pagLoop part skipCount limit (part.length + 1) 0 0 [] false
  { data := r.1.map Item.record
    pagination :=
      { page := page
        limit := limit
        total := skipCount + r.1.length + (if r.2 then 1 else 0)
        totalPages := if r.2 then page + 1 else page
        hasNext := r.2
        hasPrev := decide (1 < page) } }

/-- Client-side drain of `listByOrgPaginated`: concatenate the `data` of
pages `page, page+1, …` as long as the previous page reported
`hasNext = true` (with explicit fuel). -/
def drainPages (store : List Item) (orgId : String) (limit : Nat) :
    Nat → Nat → List Backup
  | 0, _ => []
  | fuel + 1, page =>
    let r := listByOrgPaginated store orgId page limit
    r.data ++ (if r.pagination.hasNext then drainPages store orgId limit fuel (page + 1) else [])

/-- Drain of `listByOrgPaginated` starting at page 1, with enough fuel to
exhaust the partition. -/
def drainAllPages (store : List Item) (orgId : String) (limit : Nat) : List Backup :=
  drainPages store orgId limit ((orgPartDesc store orgId).length + 1) 1

/-! ## Blob Store (`src/src/lib/s3.ts`) -/

/-- One stored S3 object. -/
structure BlobEntry where
  bucket : String
  key : String
  body : Bytes
deriving Repr, DecidableEq

/-- `putObject`: stores the body under `(bucket, key)`, overwriting. -/
def putObject (blob : List BlobEntry) (bucket key : String) (body : Bytes) :
    List BlobEntry :=
  { bucket := bucket, key := key, body := body } :: blob

/-- `getObject`: returns the most recently stored body at `(bucket, key)`,
or `none` (`NoSuchKey`). -/
def getObject (blob : List BlobEntry) (bucket key : String) : Option Bytes :=
  match blob.find? (fun e => decide (e.bucket = bucket) && decide (e.key = key)) with
  | some e => some e.body
  | none => none

/-- `BACKUP_BUCKET` (the `S3_BUCKET` default). -/
def BACKUP_BUCKET : String := "groundhog-backups-dev"

/-- Upper-case hex digit for a value below 16. -/
def hexUpperDigit (n : Nat) : Char :=
  if n < 10 then Char.ofNat (48 + n) else Char.ofNat (55 + n)

/-- UTF-8 encoding of one character (byte values). -/
def utf8Bytes (c : Char) : Bytes :=
  let n := c.toNat
  if n < 128 then [n]
  else if n < 2048 then [192 + n / 64, 128 + n % 64]
  else if n < 65536 then [224 + n / 4096, 128 + (n / 64) % 64, 128 + n % 64]
  else [240 + n / 262144, 128 + (n / 4096) % 64, 128 + (n / 64) % 64, 128 + n % 64]

/-- The non-alphanumeric characters `encodeURIComponent` leaves unescaped:
`- _ . ! ~ * ' ( )`. -/
def uriUnreservedExtra : List Char :=
  [Char.ofNat 45, Char.ofNat 95, Char.ofNat 46, Char.ofNat 33, Char.ofNat 126,
   Char.ofNat 42, Char.ofNat 39, Char.ofNat 40, Char.ofNat 41]

/-- Whether `encodeURIComponent` leaves the character as-is. -/
def isUriUnreserved (c : Char) : Bool :=
  c.isAlphanum || uriUnreservedExtra.contains c

/-- `%XX` escape of one byte. -/
def percentEncodeByte (b : Nat) : List Char :=
  [Char.ofNat 37, hexUpperDigit (b / 16), hexUpperDigit (b % 16)]

/-- JS `encodeURIComponent`. -/
def encodeURIComponent (s : String) : String :=
  String.mk ((s.toList.map (fun c =>
    if isUriUnreserved c then [c]
    else ((utf8Bytes c).map percentEncodeByte).flatten)).flatten)

/-- `timestamp.replace(/[:.]/g, '-')`. -/
def sanitizeTimestamp (t : String) : String :=
  String.map (fun c => if c = Char.ofNat 58 ∨ c = Char.ofNat 46 then Char.ofNat 45 else c) t

/-- `generateBackupKey` (`src/src/lib/s3.ts`): deterministic storage key
`<orgId>/<accountId>/<encoded guid>/<sanitized timestamp>.json`. -/
def generateBackupKey (orgId accountId dashboardGuid timestamp : String) : String :=
  orgId ++ "/" ++ accountId ++ "/" ++ encodeURIComponent dashboardGuid ++ "/" ++
    sanitizeTimestamp timestamp ++ ".json"

/-! ## Errors and service-level types -/

/-- The typed errors of `src/lib/errors` that the services raise
(`NotFoundError`, `BadRequestError`) plus store unavailability. -/
inductive AppError where
  | notFound (msg : String)
  | badRequest (msg : String)
  | storageUnavailable (msg : String)
deriving Repr, DecidableEq

/-- The credential metadata record (`ApiKey`), reduced to the field the
orchestrators branch on. -/
structure ApiKeyRec where
  status : String
deriving Repr, DecidableEq

/-- `ApiKeyService.getNewRelicClient`: `NotFoundError` when the credential
record is missing, `BadRequestError` when it is not active or its vault
secret is missing. -/
def getNewRelicClientCheck (apiKey : Option ApiKeyRec) (secret : Option String) :
    Except AppError Unit :=
  match apiKey with
  | none => .error (.notFound ("API key not found"))
  | some k =>
    if k.status = "ACTIVE" then
      match secret with
      | none => .error (.badRequest ("API key secret not found"))
      | some _ => .ok ()
    else .error (.badRequest ("API key is not active"))

/-- External side effects performed by `backupDashboard`, in order. -/
inductive Event where
  | blobPut (bucket key : String) (body : Bytes)
  | repoCreate (record : Backup)
  | apiKeyUpdate (apiKeyId : String) (dashboardCount : Nat) (lastBackupRun : String)
deriving Repr, DecidableEq

/-- The persistent state `backupDashboard` writes to: the Blob Store and
the DynamoDB table. -/
structure World where
  blob : List BlobEntry
  table : List Item
deriving Repr, DecidableEq

/-- The fields `backupDashboard` reads off `JSON.parse(dashboardJson)`. -/
structure DashMeta where
  accountId : String
  name : String
  ownerEmail : Option String
  updatedAt : Option String
deriving Repr, DecidableEq

/-- The resolved environment of one `backupDashboard` call: inputs,
collaborator results, and the server-generated identifiers/timestamps. -/
structure BackupEnv where
  orgId : String
  apiKeyId : String
  dashboardGuid : String
  apiKey : Option ApiKeyRec
  secret : Option String
  dashboardJson : Option Bytes
  meta : DashMeta
  timestamp : String
  repoNow : String
  snapshotId : String
  blobPutOk : Bool
  repoPutOk : Bool
  bookkeepingOk : Bool
deriving Repr, DecidableEq

/-- `BackupResult` (`src/src/services/backup-service.ts`). -/
structure BackupResult where
  snapshotId : String
  dashboardGuid : String
  dashboardName : String
  sizeBytes : Nat
  backupTimestamp : String
deriving Repr, DecidableEq

/-- `BackupService.backupDashboard`: resolve the client, fetch the
dashboard, hash/size the serialized payload, write it to the Blob Store,
create the repository record, then update the credential bookkeeping
(count + last run).  Failures propagate as typed errors at the point they
occur; the returned trace lists the external writes actually performed. -/
def backupDashboard (sha256 : Bytes → String) (env : BackupEnv) (w : World) :
    Except AppError BackupResult × World × List Event :=
  match getNewRelicClientCheck env.apiKey env.secret with
  | .error e => (.error e, w, [])
  | .ok _ =>
    match env.dashboardJson with
    | none => (.error (.notFound ("Dashboard not found in New Relic")), w, [])
    | some payload =>
      let s3Key := generateBackupKey env.orgId env.meta.accountId env.dashboardGuid
        env.timestamp
      let checksum := sha256 payload
      let sizeBytes := payload.length
      if env.blobPutOk then
        let w1 : World := { w with blob := putObject w.blob BACKUP_BUCKET s3Key payload }
        if env.repoPutOk then
          let item := createItem
            { orgId := env.orgId
              dashboardGuid := env.dashboardGuid
              dashboardName := env.meta.name
              accountId := env.meta.accountId
              accountName := ""
              ownerEmail := env.meta.ownerEmail
              s3Key := s3Key
              s3Bucket := BACKUP_BUCKET
              dashboardUpdatedAt := env.meta.updatedAt
              sizeBytes := sizeBytes
              checksum := checksum }
            env.snapshotId env.repoNow
          let w2 : World := { w1 with table := item :: w1.table }
          if env.bookkeepingOk then
            (.ok { snapshotId := item.record.snapshotId
                   dashboardGuid := item.record.dashboardGuid
                   dashboardName := item.record.dashboardName
                   sizeBytes := item.record.sizeBytes
                   backupTimestamp := item.record.backupTimestamp },
             w2,
             [Event.blobPut BACKUP_BUCKET s3Key payload,
              Event.repoCreate item.record,
              Event.apiKeyUpdate env.apiKeyId (countByOrg w2.table env.orgId) env.timestamp])
          else
            (.error (.storageUnavailable ("API key bookkeeping update failed")), w2,
             [Event.blobPut BACKUP_BUCKET s3Key payload, Event.repoCreate item.record])
        else
          (.error (.storageUnavailable ("Backup record write failed")), w1,
           [Event.blobPut BACKUP_BUCKET s3Key payload])
      else
        (.error (.storageUnavailable ("Blob Store write failed")), w, [])

/-- `BackupService.listBackupsByDashboard`: fetches the 100 most recent
snapshots of the dashboard and paginates them in memory
(`slice(start, end)`). -/
def listBackupsByDashboard (store : List Item) (orgId dashboardGuid : String)
    (page limit : Nat) : PaginatedBackups :=
  let allBackups := listByDashboard store orgId dashboardGuid 100
  let start := (page - 1) * limit
  { data := (allBackups.drop start).take limit
    pagination :=
      { page := page
        limit := limit
        total := allBackups.length
        totalPages := (allBackups.length + limit - 1) / limit
        hasNext := decide (start + limit < allBackups.length)
        hasPrev := decide (1 < page) } }

/-! ## JSON model and the restore field-cleaning
(`RestoreService`, `src/src/services/restore-service.ts`) -/

/-- JSON values; objects are ordered association lists (JS objects after
`JSON.parse` have unique keys in insertion order). -/
inductive Json where
  | null
  | bool (b : Bool)
  | num (n : Int)
  | str (s : String)
  | arr (elems : List Json)
  | obj (fields : List (String × Json))

/-- First value bound to key `k`. -/
def lookupF (fields : List (String × Json)) (k : String) : Option Json :=
  match fields with
  | [] => none
  | p :: rest => if p.1 = k then some p.2 else lookupF rest k

/-- JS `delete obj[k]`. -/
def eraseField (fields : List (String × Json)) (k : String) :
    List (String × Json) :=
  fields.filter (fun p => decide (p.1 ≠ k))

/-- JS `obj[k] = v`: replaces in place when the key exists, appends
otherwise. -/
def setField (fields : List (String × Json)) (k : String) (v : Json) :
    List (String × Json) :=
  if fields.any (fun p => decide (p.1 = k)) then
    fields.map (fun p => if p.1 = k then (p.1, v) else p)
  else fields ++ [(k, v)]

/-- In-place reassignment of the value at key `k`
(`cleaned[k] = f(cleaned[k])` on an existing key): every binding keeps its
key and position. -/
def mapValAt (fields : List (String × Json)) (k : String) (f : Json → Json) :
    List (String × Json) :=
  fields.map (fun pr => if pr.1 = k then (pr.1, f pr.2) else pr)

/-- Key lookup on a JSON value (`none` on non-objects). -/
def objLookup (j : Json) (k : String) : Option Json :=
  match j with
  | .obj fields => lookupF fields k
  | _ => none

/-- Widget cleaning: `delete cleanedWidget['id']`. -/
def cleanWidget (w : Json) : Json :=
  match w with
  | .obj fields => .obj (eraseField fields ("id"))
  | other => other

/-- `if (Array.isArray(cleanedPage['widgets'])) … .map(cleanWidget)`. -/
def cleanWidgetsVal (v : Json) : Json :=
  match v with
  | .arr ws => .arr (ws.map cleanWidget)
  | other => other

/-- Page cleaning: `delete cleanedPage['guid']`, then clean the widgets
array in place. -/
def cleanPage (p : Json) : Json :=
  match p with
  | .obj fields =>
    .obj (mapValAt (eraseField fields ("guid")) ("widgets") cleanWidgetsVal)
  | other => other

/-- `if (Array.isArray(cleaned['pages'])) … .map(cleanPage)`. -/
def cleanPagesVal (v : Json) : Json :=
  match v with
  | .arr ps => .arr (ps.map cleanPage)
  | other => other

/-- `RestoreService.cleanDashboardForRestore`: strip `guid`, `accountId`,
`createdAt`, `updatedAt` at the dashboard level, then clean the pages
array in place. -/
def cleanDashboardForRestore (fields : List (String × Json)) :
    List (String × Json) :=
  mapValAt
    (eraseField (eraseField (eraseField (eraseField fields ("guid")) ("accountId"))
      ("createdAt")) ("updatedAt"))
    ("pages") cleanPagesVal

/-- `cleanDashboardForRestore` on a parsed JSON value. -/
def cleanTop (j : Json) : Json :=
  match j with
  | .obj fields => .obj (cleanDashboardForRestore fields)
  | other => other

/-- JS truthiness of an optional string (`undefined` and `''` are falsy). -/
def truthy (s : Option String) : Option String :=
  match s with
  | some v => if v = "" then none else some v
  | none => none

/-- `if (newName) { dashboardData.name = newName; }`. -/
def applyRenameFields (fields : List (String × Json)) (newName : Option String) :
    List (String × Json) :=
  match truthy newName with
  | some n => setField fields ("name") (.str n)
  | none => fields

/-- The rename step on a parsed JSON value. -/
def applyRenameJson (j : Json) (newName : Option String) : Json :=
  match j with
  | .obj fields => .obj (applyRenameFields fields newName)
  | other => other

/-- `const targetAccount = targetAccountId || backup.accountId`. -/
def resolveTargetAccount (targetAccountId : Option String) (backupAccountId : String) :
    String :=
  match truthy targetAccountId with
  | some t => t
  | none => backupAccountId

/-- `RestoreOptions` (`src/src/services/restore-service.ts`). -/
structure RestoreOptions where
  orgId : String
  snapshotId : String
  apiKeyId : String
  targetAccountId : Option String
  newName : Option String

/-- `RestoreResult`. -/
structure RestoreResult where
  success : Bool
  newDashboardGuid : Option String
  message : String
deriving Repr, DecidableEq

/-- External New Relic write calls a restore performs. -/
inductive REvent where
  | createDashboard (accountId : String) (body : Json)
  | updateDashboard (dashboardGuid : String) (body : Json)

/-- The resolved environment of one restore call: the snapshot metadata
the repository returns, the parsed blob content, the credential, and the
outcomes of the external write calls. -/
structure RestoreEnv where
  backup : Option Backup
  content : Option Json
  apiKey : Option ApiKeyRec
  secret : Option String
  createResult : Except String String
  updateResult : Except String Unit

/-- `RestoreService.restoreDashboard` (create-as-new): raises typed errors
for missing snapshot / missing content / unusable credential, cleans the
payload, then converts any failure of the external create call into a
`RestoreResult{success:false}` value. -/
def restoreDashboard (env : RestoreEnv) (opts : RestoreOptions) :
    Except AppError RestoreResult × List REvent :=
  match env.backup with
  | none => (.error (.notFound ("Backup not found")), [])
  | some backup =>
    match env.content with
    | none => (.error (.notFound ("Backup content not found in storage")), [])
    | some dashboardData =>
      match getNewRelicClientCheck env.apiKey env.secret with
      | .error e => (.error e, [])
      | .ok _ =>
        let targetAccount := resolveTargetAccount opts.targetAccountId backup.accountId
        let cleanedDashboard := cleanTop (applyRenameJson dashboardData opts.newName)
        match env.createResult with
        | .ok newGuid =>
          (.ok { success := true
                 newDashboardGuid := some newGuid
                 message := ("Dashboard restored successfully. New GUID: " ++ newGuid) },
           [REvent.createDashboard targetAccount cleanedDashboard])
        | .error msg =>
          (.ok { success := false
                 newDashboardGuid := none
                 message := ("Restore failed: " ++ msg) },
           [REvent.createDashboard targetAccount cleanedDashboard])

/-- `RestoreService.restoreInPlace`: same lookups, then updates the
dashboard identified by the snapshot's own `dashboardGuid`; the
caller-supplied `targetAccountId` / `newName` are never read. -/
def restoreInPlace (env : RestoreEnv) (opts : RestoreOptions) :
    Except AppError RestoreResult × List REvent :=
  match env.backup with
  | none => (.error (.notFound ("Backup not found")), [])
  | some backup =>
    match env.content with
    | none => (.error (.notFound ("Backup content not found in storage")), [])
    | some dashboardData =>
      match getNewRelicClientCheck env.apiKey env.secret with
      | .error e => (.error e, [])
      | .ok _ =>
        match env.updateResult with
        | .ok _ =>
          (.ok { success := true
                 newDashboardGuid := some backup.dashboardGuid
                 message := ("Dashboard restored in place successfully") },
           [REvent.updateDashboard backup.dashboardGuid dashboardData])
        | .error msg =>
          (.ok { success := false
                 newDashboardGuid := none
                 message := ("Restore failed: " ++ msg) },
           [REvent.updateDashboard backup.dashboardGuid dashboardData])

/-! ## Concrete fixtures used by the witness theorems -/

/-- A well-formed create input. -/
def sampleInput1 : CreateBackupInput :=
  { orgId := "org1", dashboardGuid := "dashA", dashboardName := "Sales",
    accountId := "111", accountName := "", ownerEmail := none,
    s3Key := "k1", s3Bucket := "b", dashboardUpdatedAt := none,
    sizeBytes := 3, checksum := "c1" }

/-- A first stored snapshot item. -/
def item1 : Item := createItem sampleInput1 ("snap1") ("2024-01-02T00:00:00.000Z")

/-- A later snapshot of the same dashboard. -/
def item2 : Item :=
  createItem { sampleInput1 with checksum := "c2" } ("snap2") ("2024-01-03T00:00:00.000Z")

/-- A store holding two snapshots of one dashboard. -/
def sampleStore : List Item := [item1, item2]

/-- A stub hash function standing in for SHA-256 in concrete runs. -/
def shaConst : Bytes → String := fun _ => "h"

/-- Parsed metadata of the sample payload. -/
def sampleMeta : DashMeta :=
  { accountId := "111", name := "Sales", ownerEmail := none, updatedAt := none }

/-- A fully healthy `backupDashboard` environment. -/
def envOk : BackupEnv :=
  { orgId := "org1", apiKeyId := "key1", dashboardGuid := "dashA",
    apiKey := some { status := "ACTIVE" }, secret := some "sec",
    dashboardJson := some [123, 125], meta := sampleMeta,
    timestamp := "2024-01-02T00:00:00.000Z", repoNow := "2024-01-02T00:00:01.000Z",
    snapshotId := "snap-1", blobPutOk := true, repoPutOk := true,
    bookkeepingOk := true }

/-- Same environment with a failing Blob Store write. -/
def envBlobFail : BackupEnv := { envOk with blobPutOk := false }

/-- Same environment with a failing bookkeeping update. -/
def envBookFail : BackupEnv := { envOk with bookkeepingOk := false }

/-- The item `backupDashboard` creates in the `envOk` run. -/
def envOkItem : Item :=
  createItem
    { orgId := "org1", dashboardGuid := "dashA", dashboardName := "Sales",
      accountId := "111", accountName := "", ownerEmail := none,
      s3Key := generateBackupKey ("org1") ("111") ("dashA") ("2024-01-02T00:00:00.000Z"),
      s3Bucket := BACKUP_BUCKET, dashboardUpdatedAt := none,
      sizeBytes := 2, checksum := "h" }
    ("snap-1") ("2024-01-02T00:00:01.000Z")

/-- The empty world. -/
def emptyWorld : World := { blob := [], table := [] }

/-- The backed-up payload of example scenario 3 of the spec:
`{guid:"g1", accountId:"111", pages:[{guid:"p1", widgets:[{id:"w1", title:"T"}]}]}`. -/
def fields3 : List (String × Json) :=
  [("guid", Json.str ("g1")), ("accountId", Json.str ("111")),
   ("pages", Json.arr [Json.obj [("guid", Json.str ("p1")),
     ("widgets", Json.arr [Json.obj [("id", Json.str ("w1")),
       ("title", Json.str ("T"))]])]])]

/-- The snapshot record the restore fixtures point at. -/
def sampleBackup : Backup := envOkItem.record

/-- A fully healthy restore environment. -/
def envRestore : RestoreEnv :=
  { backup := some sampleBackup, content := some (Json.obj fields3),
    apiKey := some { status := "ACTIVE" }, secret := some "sec",
    createResult := Except.ok ("newGuid"), updateResult := Except.ok () }

/-- Plain restore options: no retarget, no rename. -/
def optsA : RestoreOptions :=
  { orgId := "org1", snapshotId := "snap-1", apiKeyId := "key1",
    targetAccountId := none, newName := none }

/-- Restore environment with a missing snapshot record. -/
def envNoBackup : RestoreEnv := { envRestore with backup := none }

/-- Restore environment whose blob has been deleted out-of-band. -/
def envNoContent : RestoreEnv := { envRestore with content := none }

/-- Restore environment with a non-active credential. -/
def envInactive : RestoreEnv := { envRestore with apiKey := some { status := "INVALID" } }

/-- Restore environment whose external create call fails. -/
def envCreateFail : RestoreEnv := { envRestore with createResult := Except.error ("boom") }

/-- Restore environment whose external update call fails. -/
def envUpdateFail : RestoreEnv := { envRestore with updateResult := Except.error ("boom") }

/-! ## Theorems -/

theorem createItem_wf (input : CreateBackupInput) (sid now : String) :
    ItemWF (createItem input sid now) := by
  refine ⟨rfl, rfl, rfl, rfl⟩

/-! ### String-order helper lemmas

DynamoDB orders items by the utf8 bytes of the sort key; appending a common
prefix does not change the relative order of two keys. -/

theorem list_append_lt_append_iff {p l₁ l₂ : List Char} :
    p ++ l₁ < p ++ l₂ ↔ l₁ < l₂ := by
  induction p with
  | nil => simp
  | cons c p ih =>
    rw [List.cons_append, List.cons_append]
    constructor
    · intro h
      exact ih.mp (List.Lex.cons_iff.mp h)
    · intro h
      exact List.Lex.cons_iff.mpr (ih.mpr h)

theorem string_append_lt_append_iff {p a b : String} :
    p ++ a < p ++ b ↔ a < b := by
  rw [String.lt_iff_toList_lt, String.lt_iff_toList_lt]
  have ha : (p ++ a).toList = p.toList ++ a.toList := by
    simp [String.toList, String.data_append]
  have hb : (p ++ b).toList = p.toList ++ b.toList := by
    simp [String.toList, String.data_append]
  rw [ha, hb]
  exact list_append_lt_append_iff

theorem string_append_le_append_iff {p a b : String} :
    p ++ a ≤ p ++ b ↔ a ≤ b := by
  rw [← not_lt, ← not_lt]
  exact not_congr string_append_lt_append_iff

theorem string_append_left_cancel {p a b : String} (h : p ++ a = p ++ b) :
    a = b := by
  exact le_antisymm (string_append_le_append_iff.mp h.le)
    (string_append_le_append_iff.mp h.ge)

/-! ### The computable string order agrees with `≤` -/

theorem charListLeB_iff : ∀ (as bs : List Char),
    charListLeB as bs = true ↔ ¬ List.Lex (· < ·) bs as := by
  intro as
  induction as with
  | nil =>
    intro bs
    simp [charListLeB, List.Lex.not_nil_right]
  | cons a as ih =>
    intro bs
    cases bs with
    | nil =>
      simp only [charListLeB, Bool.false_eq_true, false_iff, not_not]
      exact List.Lex.nil
    | cons b bs =>
      by_cases hab : a < b
      · simp only [charListLeB, hab, if_pos, true_iff]
        intro h
        cases h with
        | cons h2 => exact lt_irrefl a hab
        | rel h2 => exact lt_asymm h2 hab
      · by_cases hba : b < a
        · simp only [charListLeB, hab, if_neg, hba, if_pos, ite_self,
            Bool.false_eq_true, false_iff, not_not, if_false]
          exact List.Lex.rel hba
        · have heq : a = b := le_antisymm (le_of_not_lt hba) (le_of_not_lt hab)
          subst heq
          simp only [charListLeB, lt_irrefl, if_neg, if_false, not_false_iff,
            ite_self]
          rw [List.Lex.cons_iff]
          exact ih bs

theorem strLeB_iff_le (a b : String) : strLeB a b = true ↔ a ≤ b := by
  rw [String.le_iff_toList_le, ← not_lt]
  exact charListLeB_iff a.toList b.toList

theorem strLeB_total (a b : String) : strLeB a b = true ∨ strLeB b a = true := by
  rcases le_total a b with h | h
  · exact Or.inl ((strLeB_iff_le a b).mpr h)
  · exact Or.inr ((strLeB_iff_le b a).mpr h)

theorem strLeB_trans {a b c : String} (h1 : strLeB a b = true)
    (h2 : strLeB b c = true) : strLeB a c = true :=
  (strLeB_iff_le a c).mpr
    (le_trans ((strLeB_iff_le a b).mp h1) ((strLeB_iff_le b c).mp h2))

/-! ### C5: `listByDashboard` ordering and bound -/

theorem mem_of_mem_listByDashboard_items {store : List Item} {orgId dashboardGuid : String}
    {it : Item}
    (h : it ∈ List.insertionSort gsiDescRel
      (store.filter (fun it => decide (it.gsi1pk = gsi1Key orgId dashboardGuid)))) :
    it ∈ store := by
  have h2 := (List.mem_insertionSort gsiDescRel).mp h
  exact (List.mem_filter.mp h2).1

/-- C5.  For every `orgId`, `dashboardGuid` and `limit`, over a store whose
items were written by `BackupRepository.create`, the sequence returned by
`listByDashboard` is sorted in non-increasing `backupTimestamp` order (most
recent capture first) and contains at most `limit` items. -/
theorem listByDashboard_sorted_and_bounded
    (store : List Item) (orgId dashboardGuid : String) (limit : Nat)
    (hwf : ∀ it ∈ store, ItemWF it) :
    List.Pairwise (fun a b : Backup => b.backupTimestamp ≤ a.backupTimestamp)
      (listByDashboard store orgId dashboardGuid limit) ∧
    (listByDashboard store orgId dashboardGuid limit).length ≤ limit := by
  constructor
  · unfold listByDashboard
    rw [List.pairwise_map]
    haveI : IsTotal Item gsiDescRel := ⟨fun a b => strLeB_total b.gsi1sk a.gsi1sk⟩
    haveI : IsTrans Item gsiDescRel := ⟨fun _ _ _ hab hbc => strLeB_trans hbc hab⟩
    have hsorted : List.Pairwise gsiDescRel
        (List.insertionSort gsiDescRel
          (store.filter (fun it => decide (it.gsi1pk = gsi1Key orgId dashboardGuid)))) :=
      List.sorted_insertionSort gsiDescRel _
    have htake : List.Pairwise gsiDescRel
        ((List.insertionSort gsiDescRel
          (store.filter (fun it => decide (it.gsi1pk = gsi1Key orgId dashboardGuid)))).take
          limit) :=
      List.Pairwise.sublist (List.take_sublist _ _) hsorted
    refine List.Pairwise.imp_of_mem ?_ htake
    intro a b ha hb hrel
    have hwa := hwf a (mem_of_mem_listByDashboard_items
      (List.mem_of_mem_take ha))
    have hwb := hwf b (mem_of_mem_listByDashboard_items
      (List.mem_of_mem_take hb))
    have ha4 := hwa.2.2.2
    have hb4 := hwb.2.2.2
    unfold gsiDescRel at hrel
    have hle := (strLeB_iff_le _ _).mp hrel
    rw [ha4, hb4] at hle
    exact string_append_le_append_iff.mp hle
  · unfold listByDashboard
    rw [List.length_map]
    calc (((List.insertionSort gsiDescRel
          (store.filter (fun it => decide (it.gsi1pk = gsi1Key orgId dashboardGuid)))).take
          limit)).length ≤ limit := List.length_take_le _ _

theorem listByDashboard_sorted_and_bounded_witness :
    (∀ it ∈ sampleStore, ItemWF it) ∧
    (List.Pairwise (fun a b : Backup => b.backupTimestamp ≤ a.backupTimestamp)
      (listByDashboard sampleStore ("org1") ("dashA") 10) ∧
    (listByDashboard sampleStore ("org1") ("dashA") 10).length ≤ 10) :=
  ⟨by decide,
   listByDashboard_sorted_and_bounded sampleStore ("org1") ("dashA") 10 (by decide)⟩

/-! ### C10: the service-level per-dashboard history caps at 100 records -/

/-- C10.  `BackupService.listBackupsByDashboard` operates only over the 100
most recent snapshots of the dashboard: its reported `total` never exceeds
100, and any page whose offset lies at or beyond record 100 is empty, for
every store. -/
theorem listBackupsByDashboard_capped
    (store : List Item) (orgId dashboardGuid : String) (page limit : Nat) :
    (listBackupsByDashboard store orgId dashboardGuid page limit).pagination.total ≤ 100 ∧
    (100 ≤ (page - 1) * limit →
      (listBackupsByDashboard store orgId dashboardGuid page limit).data = []) := by
  have hlen : (listByDashboard store orgId dashboardGuid 100).length ≤ 100 := by
    unfold listByDashboard
    rw [List.length_map]
    exact List.length_take_le _ _
  constructor
  · exact hlen
  · intro hoff
    show ((listByDashboard store orgId dashboardGuid 100).drop
      ((page - 1) * limit)).take limit = []
    have : (listByDashboard store orgId dashboardGuid 100).drop ((page - 1) * limit) = [] :=
      List.drop_eq_nil_of_le (le_trans hlen hoff)
    rw [this, List.take_nil]

theorem listBackupsByDashboard_capped_witness :
    (listBackupsByDashboard sampleStore ("org1") ("dashA") 3 50).pagination.total ≤ 100 ∧
    (listBackupsByDashboard sampleStore ("org1") ("dashA") 3 50).data = [] :=
  ⟨(listBackupsByDashboard_capped sampleStore ("org1") ("dashA") 3 50).1,
   (listBackupsByDashboard_capped sampleStore ("org1") ("dashA") 3 50).2 (by decide)⟩

/-! ### C4: `findById` org isolation and drain-loop completeness -/

theorem findByIdPages_sound :
    ∀ (pages : List (List Item)) (sid : String) (b : Backup),
      findByIdPages pages sid = some b →
      ∃ it, it ∈ pages.flatten ∧ it.record = b ∧ b.snapshotId = sid := by
  intro pages
  induction pages with
  | nil => intro sid b h; simp [findByIdPages] at h
  | cons pg rest ih =>
    intro sid b h
    unfold findByIdPages at h
    cases hf : pg.filter (fun it => decide (it.record.snapshotId = sid)) with
    | nil =>
      rw [hf] at h
      obtain ⟨it, hmem, hrec, hsid⟩ := ih sid b h
      exact ⟨it, by simp only [List.flatten_cons, List.mem_append]; exact Or.inr hmem,
        hrec, hsid⟩
    | cons it0 tl =>
      rw [hf] at h
      have hb : b = it0.record := by
        injection h with h1; exact h1.symm
      have hmem0 : it0 ∈ pg.filter (fun it => decide (it.record.snapshotId = sid)) := by
        rw [hf]; exact List.mem_cons_self _ _
      have h2 := List.mem_filter.mp hmem0
      refine ⟨it0, by simp only [List.flatten_cons, List.mem_append]; exact Or.inl h2.1,
        hb.symm, ?_⟩
      rw [hb]
      exact of_decide_eq_true h2.2

theorem findByIdPages_complete :
    ∀ (pages : List (List Item)) (sid : String),
      (∃ it, it ∈ pages.flatten ∧ it.record.snapshotId = sid) →
      ∃ b, findByIdPages pages sid = some b := by
  intro pages
  induction pages with
  | nil => intro sid h; simp at h
  | cons pg rest ih =>
    intro sid h
    obtain ⟨it, hmem, hsid⟩ := h
    cases hf : pg.filter (fun it => decide (it.record.snapshotId = sid)) with
    | nil =>
      rw [List.flatten_cons, List.mem_append] at hmem
      cases hmem with
      | inl hin =>
        exfalso
        have := List.filter_eq_nil_iff.mp hf it hin
        simp [hsid] at this
      | inr hin =>
        obtain ⟨b, hb⟩ := ih sid ⟨it, hin, hsid⟩
        exact ⟨b, by unfold findByIdPages; rw [hf]; exact hb⟩
    | cons it0 tl =>
      exact ⟨it0.record, by unfold findByIdPages; rw [hf]⟩

/-- C4.  `BackupRepository.findById` never returns a snapshot whose `orgId`
differs from the requested one — even when the requested `snapshotId` is a
valid identifier of another org's snapshot — and among the requesting
org's own partition it finds a match whenever one exists, for every way
the store cuts the partition into pages (the drain loop follows the
continuation token until a match or exhaustion). -/
theorem findById_org_isolation_and_completeness
    (store : List Item) (orgId snapshotId : String) (pages : List (List Item))
    (hwf : ∀ it ∈ store, ItemWF it)
    (hpages : pages.flatten = orgPartAsc store orgId) :
    (∀ b, findByIdPages pages snapshotId = some b →
      b.orgId = orgId ∧ b.snapshotId = snapshotId) ∧
    ((∃ it ∈ orgPartAsc store orgId, it.record.snapshotId = snapshotId) →
      ∃ b, findByIdPages pages snapshotId = some b) := by
  constructor
  · intro b hb
    obtain ⟨it, hmem, hrec, hsid⟩ := findByIdPages_sound pages snapshotId b hb
    rw [hpages] at hmem
    unfold orgPartAsc at hmem
    have hmem2 := (List.mem_insertionSort skAscRel).mp hmem
    have h3 := List.mem_filter.mp hmem2
    have hfilter := h3.2
    unfold backupKeyFilter at hfilter
    rw [Bool.and_eq_true] at hfilter
    have hpk' : it.pk = "ORG#" ++ orgId := of_decide_eq_true hfilter.1
    have hpk := (hwf it h3.1).1
    have heq : "ORG#" ++ it.record.orgId = "ORG#" ++ orgId := by
      rw [← hpk, hpk']
    have horg : it.record.orgId = orgId := string_append_left_cancel heq
    refine ⟨?_, hsid⟩
    rw [← hrec]
    exact horg
  · intro h
    obtain ⟨it, hmem, hsid⟩ := h
    apply findByIdPages_complete
    refine ⟨it, ?_, hsid⟩
    rw [hpages]
    exact hmem

theorem findById_org_isolation_witness :
    (∀ b, findByIdPages [[item1], [item2]] ("snap2") = some b →
      b.orgId = "org1" ∧ b.snapshotId = "snap2") ∧
    ((∃ it ∈ orgPartAsc sampleStore ("org1"), it.record.snapshotId = "snap2") →
      ∃ b, findByIdPages [[item1], [item2]] ("snap2") = some b) :=
  findById_org_isolation_and_completeness sampleStore ("org1") ("snap2")
    [[item1], [item2]] (by decide) (by decide)

/-! ### C6: page-by-page drain of `listByOrgPaginated` equals `listByOrg` -/

theorem procLoop_spec (skipCount limit : Nat) :
    ∀ (ys : List Item) (s : Nat) (acc : List Item),
      s ≤ skipCount → acc.length ≤ limit →
      procLoop skipCount limit ys s acc =
        (min skipCount (s + ys.length),
         acc ++ (ys.drop (skipCount - s)).take (limit - acc.length),
         decide (skipCount - s + (limit - acc.length) < ys.length)) := by
  intro ys
  induction ys with
  | nil =>
    intro s acc hs hacc
    simp [procLoop, Nat.min_eq_right hs]
  | cons it rest ih =>
    intro s acc hs hacc
    by_cases h1 : s < skipCount
    · simp only [procLoop, if_pos h1]
      rw [ih (s + 1) acc (by omega) hacc]
      simp only [Prod.mk.injEq, List.length_cons]
      refine ⟨?_, ?_, ?_⟩
      · congr 1
        omega
      · have hd : (it :: rest).drop (skipCount - s) = rest.drop (skipCount - (s + 1)) := by
          obtain ⟨d, hdd⟩ : ∃ d, skipCount - s = d + 1 := ⟨skipCount - s - 1, by omega⟩
          rw [hdd, List.drop_succ_cons]
          congr 1
          omega
        rw [hd]
      · rw [decide_eq_decide]
        omega
    · have hseq : s = skipCount := le_antisymm hs (not_lt.mp h1)
      subst hseq
      by_cases h2 : acc.length < limit
      · simp only [procLoop, if_neg h1, if_pos h2]
        have hlen : (acc ++ [it]).length ≤ limit := by
          simp only [List.length_append, List.length_cons, List.length_nil]
          omega
        rw [ih s (acc ++ [it]) hs hlen]
        simp only [Prod.mk.injEq, List.length_cons, List.length_append, List.length_nil,
          Nat.sub_self, List.drop_zero, Nat.zero_add]
        refine ⟨?_, ?_, ?_⟩
        · rw [Nat.min_eq_left (by omega), Nat.min_eq_left (by omega)]
        · rw [List.append_assoc]
          congr 1
          have hh : limit - acc.length = (limit - (acc.length + 1)) + 1 := by omega
          rw [hh, List.take_succ_cons]
          rfl
        · rw [decide_eq_decide]
          omega
      · have h2' : acc.length = limit := le_antisymm hacc (not_lt.mp h2)
        simp only [procLoop, if_neg h1, if_neg h2]
        simp only [Prod.mk.injEq, List.length_cons]
        refine ⟨?_, ?_, ?_⟩
        · rw [Nat.min_eq_left (by omega)]
        · rw [h2', Nat.sub_self]
          simp
        · rw [h2', Nat.sub_self, Nat.sub_self]
          simp

theorem listByOrgPaginated_spec (store : List Item) (orgId : String)
    (page limit : Nat) (hl : 0 < limit) (hp : 1 ≤ page) :
    (listByOrgPaginated store orgId page limit).data
        = (((orgPartDesc store orgId).drop ((page - 1) * limit)).take limit).map
            Item.record ∧
    (listByOrgPaginated store orgId page limit).pagination.hasNext
        = decide (page * limit < (orgPartDesc store orgId).length) := by
  obtain ⟨p1, rfl⟩ : ∃ p1, page = p1 + 1 := ⟨page - 1, by omega⟩
  have hs1 : p1 + 1 - 1 = p1 := by omega
  have hs2 : p1 * limit + limit = (p1 + 1) * limit := (Nat.succ_mul p1 limit).symm
  set part := orgPartDesc store orgId with hpart
  have hloop : pagLoop part ((p1 + 1 - 1) * limit) limit (part.length + 1) 0 0 [] false
      = ((part.drop (p1 * limit)).take limit,
         decide ((p1 + 1) * limit < part.length)) := by
    rw [hs1]
    simp only [pagLoop, queryDesc, List.drop_zero, Nat.sub_zero]
    rw [procLoop_spec (p1 * limit) limit (part.take (limit + p1 * limit + 1)) 0 []
      (Nat.zero_le _) (by simp)]
    simp only [Nat.sub_zero, List.length_nil, List.nil_append, Nat.zero_add]
    have hdt : List.drop (p1 * limit) (List.take (limit + p1 * limit + 1) part)
        = List.take (limit + 1) (List.drop (p1 * limit) part) := by
      have h1 := List.take_drop (p1 * limit) (limit + 1) part
      rw [h1]
      congr 2
      omega
    rw [hdt, List.take_take, Nat.min_eq_left (by omega)]
    have hflag : decide (p1 * limit + limit < (List.take (limit + p1 * limit + 1) part).length)
        = decide (p1 * limit + limit < part.length) := by
      rw [List.length_take, decide_eq_decide]
      omega
    rw [hflag]
    have hcondlen : (List.take limit (List.drop (p1 * limit) part)).length
        = limit ⊓ (part.length - p1 * limit) := by
      rw [List.length_take, List.length_drop]
    by_cases hc : limit ≤ part.length - p1 * limit
    · rw [if_pos (by rw [hcondlen]; omega)]
      have hisSome : (if limit + p1 * limit + 1 ≤ part.length
            then some (limit + p1 * limit + 1) else none).isSome
          = decide (limit + p1 * limit + 1 ≤ part.length) := by
        by_cases h : limit + p1 * limit + 1 ≤ part.length <;> simp [h]
      rw [hisSome]
      have hmerge : (false || decide (p1 * limit + limit < part.length)
            || decide (limit + p1 * limit + 1 ≤ part.length))
          = decide ((p1 + 1) * limit < part.length) := by
        rw [Bool.false_or]
        rw [show decide (limit + p1 * limit + 1 ≤ part.length)
            = decide (p1 * limit + limit < part.length) from by
          rw [decide_eq_decide]; omega]
        rw [Bool.or_self, ← hs2]
      rw [hmerge]
    · rw [if_neg (by rw [hcondlen]; omega)]
      rw [if_neg (show ¬ limit + p1 * limit + 1 ≤ part.length from by omega)]
      rw [Bool.false_or, ← hs2]
  constructor
  · show (pagLoop part ((p1 + 1 - 1) * limit) limit (part.length + 1) 0 0 [] false).1.map
        Item.record
        = ((part.drop ((p1 + 1 - 1) * limit)).take limit).map Item.record
    rw [hloop, hs1]
  · show (pagLoop part ((p1 + 1 - 1) * limit) limit (part.length + 1) 0 0 [] false).2
        = decide ((p1 + 1) * limit < part.length)
    rw [hloop]

theorem drainPages_spec (store : List Item) (orgId : String) (limit : Nat)
    (hl : 0 < limit) :
    ∀ (fuel page : Nat), 1 ≤ page →
      (orgPartDesc store orgId).length ≤ (page - 1) * limit + fuel →
      drainPages store orgId limit fuel page
        = ((orgPartDesc store orgId).drop ((page - 1) * limit)).map Item.record := by
  intro fuel
  induction fuel with
  | zero =>
    intro page hp hbound
    rw [List.drop_eq_nil_of_le (by omega), List.map_nil]
    rfl
  | succ fuel ih =>
    intro page hp hbound
    obtain ⟨hdata, hnext⟩ := listByOrgPaginated_spec store orgId page limit hl hp
    simp only [drainPages, hdata, hnext]
    have hs2 : (page - 1) * limit + limit = page * limit := by
      obtain ⟨p1, rfl⟩ : ∃ p1, page = p1 + 1 := ⟨page - 1, by omega⟩
      simp [Nat.succ_mul]
    by_cases hmore : page * limit < (orgPartDesc store orgId).length
    · rw [if_pos (by simp [hmore])]
      have hpp : page + 1 - 1 = page := by omega
      rw [ih (page + 1) (by omega) (by rw [hpp]; omega)]
      have hdd : (orgPartDesc store orgId).drop ((page + 1 - 1) * limit)
          = ((orgPartDesc store orgId).drop ((page - 1) * limit)).drop limit := by
        rw [List.drop_drop, hs2, hpp]
      rw [hdd, ← List.map_append, List.take_append_drop]
    · rw [if_neg (by simp [hmore])]
      rw [List.append_nil]
      congr 1
      apply List.take_of_length_le
      rw [List.length_drop]
      omega

/-- C6.  With the store unchanged between calls, concatenating the `data`
of `listByOrgPaginated(orgId, page, limit)` for `page = 1, 2, …` while the
previous page reported `hasNext = true` yields exactly the record sequence
of a single `listByOrg(orgId)` drain (no duplicates, no gaps); and on an
org with exactly 50 records, page 1 with limit 50 reports
`hasNext = false`, while with 51 records it reports `hasNext = true`. -/
theorem listByOrgPaginated_drain_matches_listByOrg
    (store : List Item) (orgId : String) (limit maxItems : Nat)
    (hl : 0 < limit)
    (hmax : (orgPartDesc store orgId).length ≤ maxItems) :
    drainAllPages store orgId limit = listByOrg store orgId maxItems ∧
    ((orgPartDesc store orgId).length = 50 →
      (listByOrgPaginated store orgId 1 50).pagination.hasNext = false) ∧
    ((orgPartDesc store orgId).length = 51 →
      (listByOrgPaginated store orgId 1 50).pagination.hasNext = true) := by
  refine ⟨?_, ?_, ?_⟩
  · unfold drainAllPages
    rw [drainPages_spec store orgId limit hl ((orgPartDesc store orgId).length + 1) 1
      le_rfl (by omega)]
    unfold listByOrg
    rw [List.take_of_length_le hmax]
    norm_num
  · intro h50
    rw [(listByOrgPaginated_spec store orgId 1 50 (by omega) le_rfl).2, h50]
    rfl
  · intro h51
    rw [(listByOrgPaginated_spec store orgId 1 50 (by omega) le_rfl).2, h51]
    rfl

theorem listByOrgPaginated_drain_witness :
    drainAllPages sampleStore ("org1") 1 = listByOrg sampleStore ("org1") 10 :=
  (listByOrgPaginated_drain_matches_listByOrg sampleStore ("org1") 1 10
    (by decide) (by decide)).1

/-! ### C1: checksum/size integrity of created snapshots -/

/-- C1.  For every snapshot record `backupDashboard` creates, the record's
`checksum` is the SHA-256 hash of exactly the bytes retrievable from the
Blob Store at the record's content location `(s3Bucket, s3Key)`, and
`sizeBytes` is the byte length of those same bytes: hash, size and blob
write all consume the one serialized payload, with no re-serialization. -/
theorem backupDashboard_checksum_integrity
    (sha256 : Bytes → String) (env : BackupEnv) (w : World) (r : Backup)
    (hmem : Event.repoCreate r ∈ (backupDashboard sha256 env w).2.2) :
    ∃ payload,
      env.dashboardJson = some payload ∧
      getObject (backupDashboard sha256 env w).2.1.blob r.s3Bucket r.s3Key
        = some payload ∧
      r.checksum = sha256 payload ∧
      r.sizeBytes = payload.length := by
  cases hc : getNewRelicClientCheck env.apiKey env.secret with
  | error e =>
    exfalso
    simp [backupDashboard, hc] at hmem
  | ok u =>
    cases hd : env.dashboardJson with
    | none =>
      exfalso
      simp [backupDashboard, hc, hd] at hmem
    | some payload =>
      cases hb : env.blobPutOk with
      | false =>
        exfalso
        simp [backupDashboard, hc, hd, hb] at hmem
      | true =>
        cases hr : env.repoPutOk with
        | false =>
          exfalso
          simp [backupDashboard, hc, hd, hb, hr] at hmem
        | true =>
          cases hk : env.bookkeepingOk with
          | false =>
            simp only [backupDashboard, hc, hd, hb, hr, hk, Bool.false_eq_true,
              if_false, if_true, List.mem_cons, List.mem_singleton,
              List.not_mem_nil, or_false, Event.repoCreate.injEq,
              reduceCtorEq, false_or] at hmem
            subst hmem
            refine ⟨payload, rfl, ?_, rfl, rfl⟩
            simp only [backupDashboard, hc, hd, hb, hr, hk, Bool.false_eq_true,
              if_false, if_true]
            simp only [createItem]
            simp [getObject, putObject, List.find?]
          | true =>
            simp only [backupDashboard, hc, hd, hb, hr, hk,
              if_false, if_true, List.mem_cons, List.mem_singleton,
              List.not_mem_nil, or_false, Event.repoCreate.injEq,
              reduceCtorEq, false_or] at hmem
            subst hmem
            refine ⟨payload, rfl, ?_, rfl, rfl⟩
            simp only [backupDashboard, hc, hd, hb, hr, hk, if_false, if_true]
            simp only [createItem]
            simp [getObject, putObject, List.find?]

theorem backupDashboard_checksum_integrity_witness :
    ∃ payload,
      envOk.dashboardJson = some payload ∧
      getObject (backupDashboard shaConst envOk emptyWorld).2.1.blob
        envOkItem.record.s3Bucket envOkItem.record.s3Key = some payload ∧
      envOkItem.record.checksum = shaConst payload ∧
      envOkItem.record.sizeBytes = payload.length :=
  backupDashboard_checksum_integrity shaConst envOk emptyWorld envOkItem.record
    (List.mem_cons_of_mem _ (List.mem_cons_self _ _))

/-! ### C3: blob write strictly precedes the repository record write -/

/-- C3.  In `backupDashboard` the Blob Store write happens strictly before
the Snapshot Repository record write: if the blob write fails, the world
(and in particular the repository table) is unchanged and no record-create
is performed; and in every trace, any record-create event is preceded by a
blob-put event. -/
theorem backupDashboard_write_then_record
    (sha256 : Bytes → String) (env : BackupEnv) (w : World) :
    (env.blobPutOk = false →
      (backupDashboard sha256 env w).2.1 = w ∧
      ∀ r, Event.repoCreate r ∉ (backupDashboard sha256 env w).2.2) ∧
    (∀ j r, (backupDashboard sha256 env w).2.2.get? j = some (Event.repoCreate r) →
      ∃ i, i < j ∧ ∃ bucket key body,
        (backupDashboard sha256 env w).2.2.get? i
          = some (Event.blobPut bucket key body)) := by
  cases hc : getNewRelicClientCheck env.apiKey env.secret with
  | error e =>
    simp only [backupDashboard, hc]
    exact ⟨fun _ => ⟨trivial, fun r => by simp⟩, fun j r h => by simp at h⟩
  | ok u =>
    cases hd : env.dashboardJson with
    | none =>
      simp only [backupDashboard, hc, hd]
      exact ⟨fun _ => ⟨trivial, fun r => by simp⟩, fun j r h => by simp at h⟩
    | some payload =>
      cases hb : env.blobPutOk with
      | false =>
        simp only [backupDashboard, hc, hd, hb, Bool.false_eq_true, if_false]
        exact ⟨fun _ => ⟨trivial, fun r => by simp⟩, fun j r h => by simp at h⟩
      | true =>
        cases hr : env.repoPutOk with
        | false =>
          simp only [backupDashboard, hc, hd, hb, hr, Bool.false_eq_true,
            if_false, if_true]
          refine ⟨fun hfalse => by simp at hfalse, fun j r h => ?_⟩
          rcases j with _ | j
          · simp at h
          · simp at h
        | true =>
          cases hk : env.bookkeepingOk with
          | false =>
            simp only [backupDashboard, hc, hd, hb, hr, hk, Bool.false_eq_true,
              if_false, if_true]
            refine ⟨fun hfalse => by simp at hfalse, fun j r h => ?_⟩
            rcases j with _ | _ | j
            · simp at h
            · exact ⟨0, by omega, _, _, _, rfl⟩
            · simp at h
          | true =>
            simp only [backupDashboard, hc, hd, hb, hr, hk, if_true]
            refine ⟨fun hfalse => by simp at hfalse, fun j r h => ?_⟩
            rcases j with _ | _ | _ | j
            · simp at h
            · exact ⟨0, by omega, _, _, _, rfl⟩
            · simp at h
            · simp at h

theorem backupDashboard_write_then_record_witness :
    ((backupDashboard shaConst envBlobFail emptyWorld).2.1 = emptyWorld ∧
      ∀ r, Event.repoCreate r ∉ (backupDashboard shaConst envBlobFail emptyWorld).2.2) ∧
    (∃ i, i < 1 ∧ ∃ bucket key body,
      (backupDashboard shaConst envOk emptyWorld).2.2.get? i
        = some (Event.blobPut bucket key body)) :=
  ⟨(backupDashboard_write_then_record shaConst envBlobFail emptyWorld).1 rfl,
   (backupDashboard_write_then_record shaConst envOk emptyWorld).2 1
     envOkItem.record (by rfl)⟩

/-! ### C9: the bookkeeping update is not best-effort — its failure
propagates, though the snapshot record and blob remain in place -/

theorem backupDashboard_bookkeeping_failure_cx :
    (backupDashboard shaConst envBookFail emptyWorld).1
      = Except.error (AppError.storageUnavailable ("API key bookkeeping update failed")) := by
  rfl

/-- C9 (amended).  When the post-backup credential bookkeeping update
(count + last-run timestamp) fails after a successful blob write and
record write, `backupDashboard` fails — the error propagates to the
caller — but the already-created snapshot record and blob remain in
place. -/
theorem backupDashboard_bookkeeping_failure_propagates
    (sha256 : Bytes → String) (env : BackupEnv) (w : World) (payload : Bytes)
    (hk : env.bookkeepingOk = false) (hb : env.blobPutOk = true)
    (hr : env.repoPutOk = true)
    (hc : getNewRelicClientCheck env.apiKey env.secret = Except.ok ())
    (hd : env.dashboardJson = some payload) :
    (backupDashboard sha256 env w).1
        = Except.error (AppError.storageUnavailable ("API key bookkeeping update failed")) ∧
    (∃ item, (backupDashboard sha256 env w).2.1.table = item :: w.table ∧
      Event.repoCreate item.record ∈ (backupDashboard sha256 env w).2.2) ∧
    getObject (backupDashboard sha256 env w).2.1.blob BACKUP_BUCKET
      (generateBackupKey env.orgId env.meta.accountId env.dashboardGuid env.timestamp)
      = some payload := by
  simp only [backupDashboard, hc, hd, hb, hr, hk, Bool.false_eq_true, if_false, if_true]
  refine ⟨trivial, ⟨_, rfl, by simp⟩, ?_⟩
  simp [getObject, putObject, List.find?]

theorem backupDashboard_bookkeeping_failure_witness :
    (backupDashboard shaConst envBookFail emptyWorld).1
        = Except.error (AppError.storageUnavailable ("API key bookkeeping update failed")) ∧
    (∃ item, (backupDashboard shaConst envBookFail emptyWorld).2.1.table
        = item :: emptyWorld.table ∧
      Event.repoCreate item.record ∈ (backupDashboard shaConst envBookFail emptyWorld).2.2) ∧
    getObject (backupDashboard shaConst envBookFail emptyWorld).2.1.blob BACKUP_BUCKET
      (generateBackupKey envBookFail.orgId envBookFail.meta.accountId
        envBookFail.dashboardGuid envBookFail.timestamp)
      = some [123, 125] :=
  backupDashboard_bookkeeping_failure_propagates shaConst envBookFail emptyWorld
    [123, 125] rfl rfl rfl rfl rfl

/-! ### JSON field-lookup lemmas for the restore cleaner -/

theorem lookupF_eraseField_self (fs : List (String × Json)) (k : String) :
    lookupF (eraseField fs k) k = none := by
  induction fs with
  | nil => rfl
  | cons p rest ih =>
    by_cases h : p.1 = k
    · simpa [eraseField, List.filter_cons, h] using ih
    · simpa [eraseField, List.filter_cons, h, lookupF] using ih

theorem lookupF_eraseField_ne (fs : List (String × Json)) {k kk : String}
    (h : kk ≠ k) : lookupF (eraseField fs k) kk = lookupF fs kk := by
  induction fs with
  | nil => rfl
  | cons p rest ih =>
    by_cases hp : p.1 = k
    · simpa [eraseField, List.filter_cons, lookupF, hp, Ne.symm h] using ih
    · by_cases hpk : p.1 = kk
      · simp [eraseField, List.filter_cons, lookupF, hp, hpk, h]
      · simpa [eraseField, List.filter_cons, lookupF, hp, hpk] using ih

theorem lookupF_mapValAt_self (fs : List (String × Json)) (k : String)
    (f : Json → Json) :
    lookupF (mapValAt fs k f) k = (lookupF fs k).map f := by
  induction fs with
  | nil => rfl
  | cons p rest ih =>
    by_cases hp : p.1 = k
    · simp [mapValAt, lookupF, hp]
    · simpa [mapValAt, lookupF, hp] using ih

theorem lookupF_mapValAt_ne (fs : List (String × Json)) {k kk : String}
    (h : kk ≠ k) (f : Json → Json) :
    lookupF (mapValAt fs k f) kk = lookupF fs kk := by
  induction fs with
  | nil => rfl
  | cons p rest ih =>
    by_cases hp : p.1 = k
    · simpa [mapValAt, lookupF, hp, Ne.symm h] using ih
    · by_cases hpk : p.1 = kk
      · simp [mapValAt, lookupF, hp, hpk, h]
      · simpa [mapValAt, lookupF, hp, hpk] using ih

theorem lookupF_setField_ne (fs : List (String × Json)) {k kk : String}
    (h : kk ≠ k) (v : Json) :
    lookupF (setField fs k v) kk = lookupF fs kk := by
  unfold setField
  by_cases hex : fs.any (fun p => decide (p.1 = k)) = true
  · rw [if_pos hex]
    exact lookupF_mapValAt_ne fs h (fun _ => v)
  · rw [if_neg hex]
    have haux : ∀ gs : List (String × Json),
        lookupF (gs ++ [(k, v)]) kk = lookupF gs kk := by
      intro gs
      induction gs with
      | nil =>
        simp [lookupF, Ne.symm h]
      | cons p rest ihg =>
        by_cases hpk : p.1 = kk
        · simp [lookupF, hpk]
        · simp only [List.cons_append, lookupF, if_neg hpk]
          exact ihg
    exact haux fs

theorem cleanWidget_id_none (w : Json) : objLookup (cleanWidget w) ("id") = none := by
  cases w <;> simp [cleanWidget, objLookup, lookupF_eraseField_self]

theorem cleanWidget_other (w : Json) (k : String) (h : k ≠ "id") :
    objLookup (cleanWidget w) k = objLookup w k := by
  cases w <;> simp [cleanWidget, objLookup, lookupF_eraseField_ne _ h]

theorem cleanPage_guid_none (p : Json) : objLookup (cleanPage p) ("guid") = none := by
  cases p <;> simp [cleanPage, objLookup]
  rw [lookupF_mapValAt_ne _ (show ("guid" : String) ≠ "widgets" by decide)]
  exact lookupF_eraseField_self _ _

theorem cleanPage_widgets (p : Json) :
    objLookup (cleanPage p) ("widgets")
      = (objLookup p ("widgets")).map cleanWidgetsVal := by
  cases p <;> simp [cleanPage, objLookup]
  rw [lookupF_mapValAt_self, lookupF_eraseField_ne _
    (show ("widgets" : String) ≠ "guid" by decide)]

theorem cleanPage_other (p : Json) (k : String) (h1 : k ≠ "guid")
    (h2 : k ≠ "widgets") : objLookup (cleanPage p) k = objLookup p k := by
  cases p <;> simp [cleanPage, objLookup]
  rw [lookupF_mapValAt_ne _ h2, lookupF_eraseField_ne _ h1]

theorem cleanWidgetsVal_arr {v : Json} {ws : List Json}
    (h : cleanWidgetsVal v = Json.arr ws) :
    ∃ ws0, v = Json.arr ws0 ∧ ws = ws0.map cleanWidget := by
  cases v with
  | arr ws0 =>
    refine ⟨ws0, rfl, ?_⟩
    injection h with h1
    exact h1.symm
  | null => exact absurd h (by simp [cleanWidgetsVal])
  | bool b => exact absurd h (by simp [cleanWidgetsVal])
  | num n => exact absurd h (by simp [cleanWidgetsVal])
  | str s => exact absurd h (by simp [cleanWidgetsVal])
  | obj fs => exact absurd h (by simp [cleanWidgetsVal])

theorem cleanPagesVal_arr {v : Json} {ps : List Json}
    (h : cleanPagesVal v = Json.arr ps) :
    ∃ ps0, v = Json.arr ps0 ∧ ps = ps0.map cleanPage := by
  cases v with
  | arr ps0 =>
    refine ⟨ps0, rfl, ?_⟩
    injection h with h1
    exact h1.symm
  | null => exact absurd h (by simp [cleanPagesVal])
  | bool b => exact absurd h (by simp [cleanPagesVal])
  | num n => exact absurd h (by simp [cleanPagesVal])
  | str s => exact absurd h (by simp [cleanPagesVal])
  | obj fs => exact absurd h (by simp [cleanPagesVal])

theorem applyRenameFields_other (fields : List (String × Json))
    (nn : Option String) {k : String} (h : k ≠ "name") :
    lookupF (applyRenameFields fields nn) k = lookupF fields k := by
  unfold applyRenameFields
  cases truthy nn with
  | none => rfl
  | some n => exact lookupF_setField_ne fields h _

theorem cleanDashboard_strip_none (fields : List (String × Json)) :
    lookupF (cleanDashboardForRestore fields) ("guid") = none ∧
    lookupF (cleanDashboardForRestore fields) ("accountId") = none ∧
    lookupF (cleanDashboardForRestore fields) ("createdAt") = none ∧
    lookupF (cleanDashboardForRestore fields) ("updatedAt") = none := by
  unfold cleanDashboardForRestore
  refine ⟨?_, ?_, ?_, ?_⟩
  · rw [lookupF_mapValAt_ne _ (show ("guid" : String) ≠ "pages" by decide),
      lookupF_eraseField_ne _ (show ("guid" : String) ≠ "updatedAt" by decide),
      lookupF_eraseField_ne _ (show ("guid" : String) ≠ "createdAt" by decide),
      lookupF_eraseField_ne _ (show ("guid" : String) ≠ "accountId" by decide)]
    exact lookupF_eraseField_self _ _
  · rw [lookupF_mapValAt_ne _ (show ("accountId" : String) ≠ "pages" by decide),
      lookupF_eraseField_ne _ (show ("accountId" : String) ≠ "updatedAt" by decide),
      lookupF_eraseField_ne _ (show ("accountId" : String) ≠ "createdAt" by decide)]
    exact lookupF_eraseField_self _ _
  · rw [lookupF_mapValAt_ne _ (show ("createdAt" : String) ≠ "pages" by decide),
      lookupF_eraseField_ne _ (show ("createdAt" : String) ≠ "updatedAt" by decide)]
    exact lookupF_eraseField_self _ _
  · rw [lookupF_mapValAt_ne _ (show ("updatedAt" : String) ≠ "pages" by decide)]
    exact lookupF_eraseField_self _ _

theorem cleanDashboard_pages (fields : List (String × Json)) :
    lookupF (cleanDashboardForRestore fields) ("pages")
      = (lookupF fields ("pages")).map cleanPagesVal := by
  unfold cleanDashboardForRestore
  rw [lookupF_mapValAt_self,
    lookupF_eraseField_ne _ (show ("pages" : String) ≠ "updatedAt" by decide),
    lookupF_eraseField_ne _ (show ("pages" : String) ≠ "createdAt" by decide),
    lookupF_eraseField_ne _ (show ("pages" : String) ≠ "accountId" by decide),
    lookupF_eraseField_ne _ (show ("pages" : String) ≠ "guid" by decide)]

theorem cleanDashboard_other (fields : List (String × Json)) {k : String}
    (h1 : k ≠ "guid") (h2 : k ≠ "accountId") (h3 : k ≠ "createdAt")
    (h4 : k ≠ "updatedAt") (h5 : k ≠ "pages") :
    lookupF (cleanDashboardForRestore fields) k = lookupF fields k := by
  unfold cleanDashboardForRestore
  rw [lookupF_mapValAt_ne _ h5, lookupF_eraseField_ne _ h4,
    lookupF_eraseField_ne _ h3, lookupF_eraseField_ne _ h2,
    lookupF_eraseField_ne _ h1]

/-! ### C2: `restoreDashboard` strips exactly the conflicting fields -/

/-- C2.  For every stored snapshot payload object, retarget/rename options,
the dashboard JSON that `restoreDashboard` submits to the external create
operation has no `guid`, `accountId`, `createdAt` or `updatedAt` key at
the dashboard level, no `guid` key in any page, and no `id` key in any
widget of any page — while every other field is preserved: top-level keys
outside the strip set (and `pages`, which is cleaned element-wise) keep
their values from the (possibly renamed) payload, the rename touches only
`name`, pages keep every key except `guid` (with `widgets` cleaned
element-wise), and widgets keep every key except `id` (e.g. a widget's
`title`). -/
theorem restoreDashboard_strips_conflicting_fields
    (env : RestoreEnv) (opts : RestoreOptions) (backup : Backup)
    (fields : List (String × Json))
    (hb : env.backup = some backup)
    (hcontent : env.content = some (Json.obj fields))
    (hclient : getNewRelicClientCheck env.apiKey env.secret = Except.ok ()) :
    ∃ out, (restoreDashboard env opts).2 =
        [REvent.createDashboard
          (resolveTargetAccount opts.targetAccountId backup.accountId)
          (Json.obj out)] ∧
      out = cleanDashboardForRestore (applyRenameFields fields opts.newName) ∧
      lookupF out ("guid") = none ∧
      lookupF out ("accountId") = none ∧
      lookupF out ("createdAt") = none ∧
      lookupF out ("updatedAt") = none ∧
      (∀ ps, lookupF out ("pages") = some (Json.arr ps) →
        ∀ p ∈ ps, objLookup p ("guid") = none ∧
          ∀ ws, objLookup p ("widgets") = some (Json.arr ws) →
            ∀ wd ∈ ws, objLookup wd ("id") = none) ∧
      (∀ k, k ≠ "guid" → k ≠ "accountId" → k ≠ "createdAt" → k ≠ "updatedAt" →
        k ≠ "pages" →
        lookupF out k = lookupF (applyRenameFields fields opts.newName) k) ∧
      (∀ k, k ≠ "name" →
        lookupF (applyRenameFields fields opts.newName) k = lookupF fields k) ∧
      (∀ ps, lookupF (applyRenameFields fields opts.newName) ("pages")
          = some (Json.arr ps) →
        lookupF out ("pages") = some (Json.arr (ps.map cleanPage)) ∧
        ∀ p ∈ ps,
          (∀ k, k ≠ "guid" → k ≠ "widgets" →
            objLookup (cleanPage p) k = objLookup p k) ∧
          (∀ ws, objLookup p ("widgets") = some (Json.arr ws) →
            objLookup (cleanPage p) ("widgets")
              = some (Json.arr (ws.map cleanWidget)) ∧
            ∀ wd ∈ ws, ∀ k, k ≠ "id" →
              objLookup (cleanWidget wd) k = objLookup wd k)) := by
  refine ⟨cleanDashboardForRestore (applyRenameFields fields opts.newName),
    ?_, rfl, (cleanDashboard_strip_none _).1, (cleanDashboard_strip_none _).2.1,
    (cleanDashboard_strip_none _).2.2.1, (cleanDashboard_strip_none _).2.2.2,
    ?_, ?_, ?_, ?_⟩
  · cases hcr : env.createResult with
    | ok g => simp [restoreDashboard, hb, hcontent, hclient, hcr, cleanTop,
        applyRenameJson]
    | error msg => simp [restoreDashboard, hb, hcontent, hclient, hcr, cleanTop,
        applyRenameJson]
  · intro ps hps
    rw [cleanDashboard_pages] at hps
    obtain ⟨v, hv, hcv⟩ := Option.map_eq_some'.mp hps
    obtain ⟨ps0, rfl, rfl⟩ := cleanPagesVal_arr hcv
    intro p hp
    obtain ⟨p0, hp0, rfl⟩ := List.mem_map.mp hp
    refine ⟨cleanPage_guid_none p0, ?_⟩
    intro ws hws
    rw [cleanPage_widgets] at hws
    obtain ⟨w0, hw0, hcw⟩ := Option.map_eq_some'.mp hws
    obtain ⟨ws0, rfl, rfl⟩ := cleanWidgetsVal_arr hcw
    intro wd hwd
    obtain ⟨wd0, hwd0, rfl⟩ := List.mem_map.mp hwd
    exact cleanWidget_id_none wd0
  · intro k h1 h2 h3 h4 h5
    exact cleanDashboard_other _ h1 h2 h3 h4 h5
  · intro k h
    exact applyRenameFields_other _ _ h
  · intro ps hps
    constructor
    · rw [cleanDashboard_pages, hps]
      rfl
    · intro p hp
      refine ⟨fun k h1 h2 => cleanPage_other p k h1 h2, ?_⟩
      intro ws hws
      constructor
      · rw [cleanPage_widgets, hws]
        rfl
      · intro wd hwd k h
        exact cleanWidget_other wd k h

theorem restoreDashboard_strips_witness :
    ∃ out, (restoreDashboard envRestore optsA).2 =
        [REvent.createDashboard
          (resolveTargetAccount optsA.targetAccountId sampleBackup.accountId)
          (Json.obj out)] ∧
      out = cleanDashboardForRestore (applyRenameFields fields3 optsA.newName) ∧
      lookupF out ("guid") = none ∧
      lookupF out ("accountId") = none ∧
      lookupF out ("createdAt") = none ∧
      lookupF out ("updatedAt") = none ∧
      (∀ ps, lookupF out ("pages") = some (Json.arr ps) →
        ∀ p ∈ ps, objLookup p ("guid") = none ∧
          ∀ ws, objLookup p ("widgets") = some (Json.arr ws) →
            ∀ wd ∈ ws, objLookup wd ("id") = none) ∧
      (∀ k, k ≠ "guid" → k ≠ "accountId" → k ≠ "createdAt" → k ≠ "updatedAt" →
        k ≠ "pages" →
        lookupF out k = lookupF (applyRenameFields fields3 optsA.newName) k) ∧
      (∀ k, k ≠ "name" →
        lookupF (applyRenameFields fields3 optsA.newName) k = lookupF fields3 k) ∧
      (∀ ps, lookupF (applyRenameFields fields3 optsA.newName) ("pages")
          = some (Json.arr ps) →
        lookupF out ("pages") = some (Json.arr (ps.map cleanPage)) ∧
        ∀ p ∈ ps,
          (∀ k, k ≠ "guid" → k ≠ "widgets" →
            objLookup (cleanPage p) k = objLookup p k) ∧
          (∀ ws, objLookup p ("widgets") = some (Json.arr ws) →
            objLookup (cleanPage p) ("widgets")
              = some (Json.arr (ws.map cleanWidget)) ∧
            ∀ wd ∈ ws, ∀ k, k ≠ "id" →
              objLookup (cleanWidget wd) k = objLookup wd k)) :=
  restoreDashboard_strips_conflicting_fields envRestore optsA sampleBackup fields3
    rfl rfl rfl

/-! ### C7: `restoreInPlace` always targets the snapshot's own dashboard -/

/-- C7.  `restoreInPlace` issues its external update only against the
`dashboardGuid` stored in the snapshot's metadata; no caller-supplied
option (`targetAccountId`, `newName`, or any other) changes which
dashboard is overwritten. -/
theorem restoreInPlace_targets_snapshot_guid
    (env : RestoreEnv) (opts : RestoreOptions) (backup : Backup)
    (hb : env.backup = some backup) :
    (∀ g body, REvent.updateDashboard g body ∈ (restoreInPlace env opts).2 →
      g = backup.dashboardGuid) ∧
    (∀ t n, restoreInPlace env opts
      = restoreInPlace env
          { orgId := opts.orgId, snapshotId := opts.snapshotId,
            apiKeyId := opts.apiKeyId, targetAccountId := t, newName := n }) := by
  constructor
  · intro g body hmem
    cases hcontent : env.content with
    | none => simp [restoreInPlace, hb, hcontent] at hmem
    | some dashboardData =>
      cases hc : getNewRelicClientCheck env.apiKey env.secret with
      | error e => simp [restoreInPlace, hb, hcontent, hc] at hmem
      | ok u =>
        cases hur : env.updateResult with
        | ok v =>
          simp only [restoreInPlace, hb, hcontent, hc, hur, List.mem_singleton,
            REvent.updateDashboard.injEq] at hmem
          exact hmem.1
        | error msg =>
          simp only [restoreInPlace, hb, hcontent, hc, hur, List.mem_singleton,
            REvent.updateDashboard.injEq] at hmem
          exact hmem.1
  · intro t n
    rfl

theorem restoreInPlace_targets_witness :
    (∀ g body, REvent.updateDashboard g body ∈ (restoreInPlace envRestore optsA).2 →
      g = sampleBackup.dashboardGuid) ∧
    (∀ t n, restoreInPlace envRestore optsA
      = restoreInPlace envRestore
          { orgId := optsA.orgId, snapshotId := optsA.snapshotId,
            apiKeyId := optsA.apiKeyId, targetAccountId := t, newName := n }) :=
  restoreInPlace_targets_snapshot_guid envRestore optsA sampleBackup rfl

/-! ### C8: restore error semantics — write failures become values, missing
inputs raise typed errors -/

/-- C8.  When the external create/update call fails during
`restoreDashboard` / `restoreInPlace`, the operation returns a
`RestoreResult` with `success = false` and a human-readable message
instead of raising; whereas a missing snapshot, missing blob content, or
missing/non-active credential is raised as a typed error (`NotFoundError`
/ `BadRequestError`) that propagates to the caller. -/
theorem restore_error_semantics (env : RestoreEnv) (opts : RestoreOptions) :
    (env.backup = none →
      restoreDashboard env opts
          = (Except.error (AppError.notFound ("Backup not found")), []) ∧
      restoreInPlace env opts
          = (Except.error (AppError.notFound ("Backup not found")), [])) ∧
    (∀ b, env.backup = some b → env.content = none →
      restoreDashboard env opts
          = (Except.error (AppError.notFound ("Backup content not found in storage")), []) ∧
      restoreInPlace env opts
          = (Except.error (AppError.notFound ("Backup content not found in storage")), [])) ∧
    (∀ b j e, env.backup = some b → env.content = some j →
      getNewRelicClientCheck env.apiKey env.secret = Except.error e →
      (restoreDashboard env opts).1 = Except.error e ∧
      (restoreInPlace env opts).1 = Except.error e) ∧
    (env.apiKey = none →
      getNewRelicClientCheck env.apiKey env.secret
        = Except.error (AppError.notFound ("API key not found"))) ∧
    (∀ k, env.apiKey = some k → k.status ≠ "ACTIVE" →
      getNewRelicClientCheck env.apiKey env.secret
        = Except.error (AppError.badRequest ("API key is not active"))) ∧
    (∀ b j msg, env.backup = some b → env.content = some j →
      getNewRelicClientCheck env.apiKey env.secret = Except.ok () →
      env.createResult = Except.error msg →
      (restoreDashboard env opts).1
        = Except.ok ⟨false, none, ("Restore failed: " ++ msg)⟩) ∧
    (∀ b j msg, env.backup = some b → env.content = some j →
      getNewRelicClientCheck env.apiKey env.secret = Except.ok () →
      env.updateResult = Except.error msg →
      (restoreInPlace env opts).1
        = Except.ok ⟨false, none, ("Restore failed: " ++ msg)⟩) := by
  refine ⟨?_, ?_, ?_, ?_, ?_, ?_, ?_⟩
  · intro hb
    exact ⟨by simp [restoreDashboard, hb], by simp [restoreInPlace, hb]⟩
  · intro b hb hcontent
    exact ⟨by simp [restoreDashboard, hb, hcontent],
      by simp [restoreInPlace, hb, hcontent]⟩
  · intro b j e hb hcontent hc
    exact ⟨by simp [restoreDashboard, hb, hcontent, hc],
      by simp [restoreInPlace, hb, hcontent, hc]⟩
  · intro hk
    simp [getNewRelicClientCheck, hk]
  · intro k hk hstatus
    simp [getNewRelicClientCheck, hk, hstatus]
  · intro b j msg hb hcontent hc hcr
    simp [restoreDashboard, hb, hcontent, hc, hcr]
  · intro b j msg hb hcontent hc hur
    simp [restoreInPlace, hb, hcontent, hc, hur]

theorem restore_error_semantics_witness :
    (restoreDashboard envNoBackup optsA
        = (Except.error (AppError.notFound ("Backup not found")), []) ∧
      restoreInPlace envNoBackup optsA
        = (Except.error (AppError.notFound ("Backup not found")), [])) ∧
    (restoreInPlace envNoContent optsA
        = (Except.error (AppError.notFound ("Backup content not found in storage")), [])) ∧
    ((restoreDashboard envInactive optsA).1
        = Except.error (AppError.badRequest ("API key is not active"))) ∧
    ((restoreDashboard envCreateFail optsA).1
        = Except.ok ⟨false, none, ("Restore failed: " ++ "boom")⟩) ∧
    ((restoreInPlace envUpdateFail optsA).1
        = Except.ok ⟨false, none, ("Restore failed: " ++ "boom")⟩) :=
  ⟨(restore_error_semantics envNoBackup optsA).1 rfl,
   ((restore_error_semantics envNoContent optsA).2.1 sampleBackup rfl rfl).2,
   ((restore_error_semantics envInactive optsA).2.2.1 sampleBackup
     (Json.obj fields3) (AppError.badRequest ("API key is not active"))
     rfl rfl rfl).1,
   (restore_error_semantics envCreateFail optsA).2.2.2.2.2.1 sampleBackup
     (Json.obj fields3) ("boom") rfl rfl rfl rfl,
   (restore_error_semantics envUpdateFail optsA).2.2.2.2.2.2 sampleBackup
     (Json.obj fields3) ("boom") rfl rfl rfl rfl⟩

end Groundhog
